import Mathlib

/-!
Shallow embedding of the Curve transaction parser
(src: the transaction-parsing module of the curve-pools repository).

Modelling conventions:
* the arbitrary-precision `Decimal` type is modelled as `ℚ` (exact rationals);
* `BigNumber` raw token amounts are `ℕ` (calldata amounts are unsigned);
* a JavaScript `throw` is modelled by `Except JSError`; a function that can
  return `undefined` (`CurveTransaction | void`) returns an `Option` inside
  the `Except`;
* accessing a property of `undefined` (e.g. indexing `pool.coins` out of
  range and then reading `.symbol`, or calling `.map`/`formatUnits` on a
  missing argument) throws a `TypeError`, an error object whose `code`
  property is absent;
* `ethers.utils.formatUnits raw decimals` produces the exact decimal string
  of `raw / 10 ^ decimals`, re-read by `new Decimal`; composed, this is exact
  division in `ℚ`;
* the ABI decode capability (`pool.interface.parseTransaction`) is passed to
  `parseTransaction` as a function argument from calldata and value to
  `Except JSError TransactionDescription`.
-/

/-- The transaction kinds of the output record (`CurveTransactionType`). -/
inductive CurveTransactionType where
  | ADD_LIQUIDITY
  | REMOVE_LIQUIDITY
  | EXCHANGE
  deriving DecidableEq, Repr

/-- Direction tag of a token leg: `'add' | 'remove'`. -/
inductive LegType where
  | add
  | remove
  deriving DecidableEq, Repr

/-- `CurveTokenWithAmount`: one token leg of the output.  `amount` is absent
when the quantity is not recoverable from the call arguments. -/
structure CurveTokenWithAmount where
  symbol : String
  address : String
  amount : Option ℚ := none
  type : LegType
  deriving DecidableEq, Repr

/-- `CurveTransaction`: the classified output record. -/
structure CurveTransaction where
  hash : String
  pool : String
  timestamp : ℕ
  type : CurveTransactionType
  totalAmount : Option ℚ := none
  tokens : List CurveTokenWithAmount
  deriving DecidableEq, Repr

/-- Modelled from the spec: the pool metadata provider supplies an asset-type
classification drawn from a fixed enumeration including a distinguished
"unknown" value (`CurveAssetTypeName` of `curve.constants`, not under src/).
Only the distinguished `unknown` value is compared against by the parser. -/
inductive CurveAssetTypeName where
  | usd
  | eth
  | btc
  | crypto
  | other
  | unknown
  deriving DecidableEq, Repr

/-- One coin of a pool: symbol, address, decimal precision.  `decimals` is
stored as a number (the source applies `Number(...)` to it at use sites). -/
structure CurveCoin where
  symbol : String
  address : String
  decimals : ℕ
  deriving DecidableEq, Repr

/-- `CurvePoolWithInterface` minus the ABI interface, which is passed to
`parseTransaction` separately as the decode capability. -/
structure CurvePoolWithInterface where
  address : String
  coins : List CurveCoin
  assetTypeName : CurveAssetTypeName
  deriving DecidableEq, Repr

/-- Modelled from the spec: the raw block-explorer transaction record
(`EtherscanTx` of the etherscan module, not under src/) with the fields the
parser reads: hash, timestamp (seconds, already numeric here), status flag,
error flag, recipient (empty string when absent, as for contract creation),
calldata and value.  Timestamp string-to-number conversion is out of scope. -/
structure EtherscanTx where
  hash : String
  timeStamp : ℕ
  txreceipt_status : String
  isError : String
  «to» : String
  input : String
  value : String
  deriving DecidableEq, Repr

/-- The named arguments of a decoded call.  Each field is `none` when the
decoded call does not carry an argument of that name (reading it in JS gives
`undefined`); `a ?? b` becomes `a <|> b`. -/
structure DecodedArgs where
  _amounts : Option (List ℕ) := none
  amounts : Option (List ℕ) := none
  uamounts : Option (List ℕ) := none
  _token_amount : Option ℕ := none
  token_amount : Option ℕ := none
  _burn_amount : Option ℕ := none
  _amount : Option ℕ := none
  i : Option ℕ := none
  j : Option ℕ := none
  dx : Option ℕ := none
  _dx : Option ℕ := none
  deriving DecidableEq, Repr

/-- `ethers.utils.TransactionDescription`: function name plus named args. -/
structure TransactionDescription where
  name : String
  args : DecodedArgs
  deriving DecidableEq, Repr

/-- A thrown JavaScript error, abstracted to the one property the parser
inspects: its optional `code` string. -/
structure JSError where
  code : Option String
  deriving DecidableEq, Repr

/-- A `TypeError` from accessing a property of `undefined`: no `code`. -/
def typeError : JSError := { code := none }

/-- `ethers.utils.formatUnits` composed with `new Decimal`: exact value of
`raw / 10 ^ decimals`. -/
def formatUnits (raw : ℕ) (decimals : ℕ) : ℚ :=
  (raw : ℚ) / (10 : ℚ) ^ decimals

/-- Modelled from the spec: `CURVE_POOL_TOKEN_DECIMALS` of `curve.constants`
(not under src/), the fixed pool-LP-token precision constant shared across
all pools, distinct from individual coin precisions. -/
def CURVE_POOL_TOKEN_DECIMALS : ℕ := 18

/-- The shared loop of `parseAddLiquidity` and the `remove_liquidity_imbalance`
branch of `parseRemoveLiquidity`:
`lodash.compact(rawAmounts.map((rawAmount, i) => ...))` together with the
mutable accumulation `totalAmount = totalAmount.add(amount)`.  Zero raw
amounts are skipped before `pool.coins[i]` is read; a non-zero raw amount at
an index with no pool coin reads `.symbol` of `undefined` and throws. -/
def mapCompactTokens (coins : List CurveCoin) (tag : LegType) :
    List ℕ → ℕ → Except JSError (List CurveTokenWithAmount × ℚ)
  | [], _ => .ok ([], 0)
  | rawAmount :: rest, idx =>
    if rawAmount = 0 then
      -- Ignore zero values
      mapCompactTokens coins tag rest (idx + 1)
    else
      match coins[idx]? with
      | none => .error typeError
      | some coin =>
        match mapCompactTokens coins tag rest (idx + 1) with
        | .error e => .error e
        | .ok (tokens, total) =>
          .ok ({ symbol := coin.symbol
                 address := coin.address
                 amount := some (formatUnits rawAmount coin.decimals)
                 type := tag } :: tokens,
               formatUnits rawAmount coin.decimals + total)

/-- `parseRemoveLiquidity`: the three `remove_liquidity*` variants. -/
def parseRemoveLiquidity (tx : EtherscanTx) (pool : CurvePoolWithInterface)
    (decodedInput : TransactionDescription) :
    Except JSError (Option CurveTransaction) :=
  if decodedInput.name = "remove_liquidity_imbalance" then
    match decodedInput.args._amounts <|> decodedInput.args.amounts with
    | none => .error typeError
    | some rawAmounts =>
      match mapCompactTokens pool.coins .remove rawAmounts 0 with
      | .error e => .error e
      | .ok (tokens, totalAmount) =>
        .ok (some { hash := tx.hash
                    pool := pool.address
                    timestamp := tx.timeStamp
                    type := .REMOVE_LIQUIDITY
                    totalAmount :=
                      if pool.assetTypeName ≠ .unknown then some totalAmount
                      else none
                    tokens := tokens })
  else if decodedInput.name = "remove_liquidity_one_coin" then
    match (decodedInput.args._token_amount <|> decodedInput.args.token_amount)
        <|> decodedInput.args._burn_amount with
    | none => .error typeError
    | some rawAmount =>
      match decodedInput.args.i with
      | none => .error typeError
      | some iVal =>
        match pool.coins[iVal]? with
        | none => .error typeError
        | some coin =>
          .ok (some { hash := tx.hash
                      pool := pool.address
                      timestamp := tx.timeStamp
                      type := .REMOVE_LIQUIDITY
                      totalAmount :=
                        if pool.assetTypeName ≠ .unknown then
                          some (formatUnits rawAmount CURVE_POOL_TOKEN_DECIMALS)
                        else none
                      -- output amount of this token unknown
                      tokens := [{ symbol := coin.symbol
                                   address := coin.address
                                   type := .remove }] })
  else if decodedInput.name = "remove_liquidity" then
    match decodedInput.args._amount <|> decodedInput.args._burn_amount with
    | none => .error typeError
    | some rawAmount =>
      .ok (some { hash := tx.hash
                  pool := pool.address
                  timestamp := tx.timeStamp
                  type := .REMOVE_LIQUIDITY
                  totalAmount :=
                    if pool.assetTypeName ≠ .unknown then
                      some (formatUnits rawAmount CURVE_POOL_TOKEN_DECIMALS)
                    else none
                  -- all coins removed, per-coin amounts unknown
                  tokens := pool.coins.map fun coin =>
                    { symbol := coin.symbol
                      address := coin.address
                      type := .remove } })
  else
    -- unknown transaction type: warn and return undefined
    .ok none

/-- `parseAddLiquidity`: the single `add_liquidity` variant. -/
def parseAddLiquidity (tx : EtherscanTx) (pool : CurvePoolWithInterface)
    (decodedInput : TransactionDescription) :
    Except JSError (Option CurveTransaction) :=
  if decodedInput.name = "add_liquidity" then
    match (decodedInput.args._amounts <|> decodedInput.args.amounts)
        <|> decodedInput.args.uamounts with
    | none => .error typeError
    | some rawAmounts =>
      match mapCompactTokens pool.coins .add rawAmounts 0 with
      | .error e => .error e
      | .ok (tokens, totalAmount) =>
        .ok (some { hash := tx.hash
                    pool := pool.address
                    timestamp := tx.timeStamp
                    type := .ADD_LIQUIDITY
                    totalAmount :=
                      if pool.assetTypeName ≠ .unknown then some totalAmount
                      else none
                    tokens := tokens })
  else
    -- unknown transaction type: warn and return undefined
    .ok none

/-- `parseExchange`: the standard `exchange` variant; `exchange_underlying`
and unknown names yield no transaction.  Error order mirrors the source:
`args.i.toNumber()` and `args.j.toNumber()` throw on a missing argument;
an out-of-range source index throws at `Number(fromCoin.decimals)`; a
missing `dx ?? _dx` throws inside `formatUnits`; an out-of-range destination
index throws at `toCoin.symbol` when the legs are built. -/
def parseExchange (tx : EtherscanTx) (pool : CurvePoolWithInterface)
    (decodedInput : TransactionDescription) :
    Except JSError (Option CurveTransaction) :=
  if decodedInput.name = "exchange" then
    match decodedInput.args.i with
    | none => .error typeError
    | some iVal =>
      match decodedInput.args.j with
      | none => .error typeError
      | some jVal =>
        match pool.coins[iVal]? with
        | none => .error typeError
        | some fromCoin =>
          match decodedInput.args.dx <|> decodedInput.args._dx with
          | none => .error typeError
          | some rawAmount =>
            let totalAmount := formatUnits rawAmount fromCoin.decimals
            match pool.coins[jVal]? with
            | none => .error typeError
            | some toCoin =>
              .ok (some { hash := tx.hash
                          pool := pool.address
                          timestamp := tx.timeStamp
                          type := .EXCHANGE
                          totalAmount :=
                            if pool.assetTypeName ≠ .unknown then
                              some totalAmount
                            else none
                          tokens := [{ symbol := fromCoin.symbol
                                       address := fromCoin.address
                                       amount := some totalAmount
                                       type := .add },
                                     -- need tx logs to determine amount
                                     { symbol := toCoin.symbol
                                       address := toCoin.address
                                       type := .remove }] })
  else if decodedInput.name = "exchange_underlying" then
    -- pool data does not describe underlying tokens
    .ok none
  else
    -- unknown transaction type: warn and return undefined
    .ok none

/-- `ParseTransactionAPI`: the raw decoded call plus the classification. -/
structure ParseTransactionAPI where
  decodedInput : Option TransactionDescription
  transaction : Option CurveTransaction
  deriving DecidableEq, Repr

/-- `parseTransaction`: guards, ABI decode with `INVALID_ARGUMENT` recovery,
and prefix dispatch to the three decoders. -/
def parseTransaction
    (decode : String → String → Except JSError TransactionDescription)
    (pool : CurvePoolWithInterface) (tx : EtherscanTx) :
    Except JSError ParseTransactionAPI :=
  if tx.txreceipt_status ≠ "1" ∨ tx.isError = "1" then
    -- failed / reverted tx cannot be decoded/parsed correctly
    .ok { decodedInput := none, transaction := none }
  else if tx.«to» = "" then
    -- recipient is empty on deploy contract call
    .ok { decodedInput := none, transaction := none }
  else
    match decode tx.input tx.value with
    | .error e =>
      if e.code = some "INVALID_ARGUMENT" then
        .ok { decodedInput := none, transaction := none }
      else
        .error e
    | .ok decodedInput =>
      if decodedInput.name.startsWith "remove_liquidity" then
        match parseRemoveLiquidity tx pool decodedInput with
        | .error e => .error e
        | .ok transaction =>
          .ok { decodedInput := some decodedInput, transaction := transaction }
      else if decodedInput.name.startsWith "add_liquidity" then
        match parseAddLiquidity tx pool decodedInput with
        | .error e => .error e
        | .ok transaction =>
          .ok { decodedInput := some decodedInput, transaction := transaction }
      else if decodedInput.name.startsWith "exchange" then
        match parseExchange tx pool decodedInput with
        | .error e => .error e
        | .ok transaction =>
          .ok { decodedInput := some decodedInput, transaction := transaction }
      else
        .ok { decodedInput := some decodedInput, transaction := none }

/-! ### Spec-side characterizations and helper lemmas -/

/-- Spec-side characterization of the legs of an amounts-vector call
(spec, Testable Properties): one leg exactly for each index `i` with
`A[i]` non-zero, positionally aligned with the pool's coins, carrying
amount `A[i] / 10 ^ decimals[i]` and the given direction tag. -/
def specLegsForAmounts (tag : LegType) (rawAmounts : List ℕ)
    (coins : List CurveCoin) : List CurveTokenWithAmount :=
  (rawAmounts.zip coins).filterMap fun p =>
    if p.1 = 0 then none
    else some { symbol := p.2.symbol
                address := p.2.address
                amount := some (formatUnits p.1 p.2.decimals)
                type := tag }

/-- Spec-side characterization of the total of an amounts-vector call:
the sum over i of `A[i] / 10 ^ decimals[i]` restricted to non-zero `A[i]`. -/
def specTotalForAmounts (rawAmounts : List ℕ) (coins : List CurveCoin) : ℚ :=
  ((rawAmounts.zip coins).map fun p =>
    if p.1 = 0 then 0 else formatUnits p.1 p.2.decimals).sum

theorem formatUnits_ne_zero {raw dec : ℕ} (h : raw ≠ 0) :
    formatUnits raw dec ≠ 0 := by
  unfold formatUnits
  apply div_ne_zero
  · exact_mod_cast h
  · positivity

/-- The amounts-loop agrees with the spec-side characterization whenever the
amounts vector fits inside the coins remaining from the working index. -/
theorem mapCompactTokens_eq_spec (coins : List CurveCoin) (tag : LegType) :
    ∀ (rawAmounts : List ℕ) (idx : ℕ),
      rawAmounts.length ≤ (coins.drop idx).length →
      mapCompactTokens coins tag rawAmounts idx =
        .ok (specLegsForAmounts tag rawAmounts (coins.drop idx),
             specTotalForAmounts rawAmounts (coins.drop idx)) := by
  intro A
  induction A with
  | nil =>
    intro idx _
    simp [mapCompactTokens, specLegsForAmounts, specTotalForAmounts]
  | cons a A ih =>
    intro idx h
    cases hd : coins.drop idx with
    | nil => rw [hd] at h; simp at h
    | cons c cs =>
      have hget : coins[idx]? = some c := by
        have h0 := List.getElem?_drop coins idx 0
        rw [hd] at h0
        simpa using h0.symm
      have hdrop : coins.drop (idx + 1) = cs := by
        have h2 := List.drop_drop 1 idx coins
        rw [hd] at h2
        simpa [Nat.add_comm] using h2.symm
      have hlen : A.length ≤ (coins.drop (idx + 1)).length := by
        rw [hdrop]
        rw [hd] at h
        simpa using h
      by_cases ha : a = 0
      · subst ha
        simp only [mapCompactTokens, if_pos rfl]
        rw [ih (idx + 1) hlen, hdrop]
        simp [specLegsForAmounts, specTotalForAmounts]
      · simp only [mapCompactTokens, if_neg ha, hget]
        rw [ih (idx + 1) hlen, hdrop]
        simp [specLegsForAmounts, specTotalForAmounts, ha]

/-- On any successful run of the amounts-loop, the accumulated total is the
sum of the present leg amounts. -/
theorem mapCompactTokens_total_eq_sum (coins : List CurveCoin) (tag : LegType) :
    ∀ (rawAmounts : List ℕ) (idx : ℕ) tokens total,
      mapCompactTokens coins tag rawAmounts idx = .ok (tokens, total) →
      total = (tokens.filterMap CurveTokenWithAmount.amount).sum := by
  intro A
  induction A with
  | nil =>
    intro idx tokens total h
    simp only [mapCompactTokens, Except.ok.injEq, Prod.mk.injEq] at h
    simp [← h.1, ← h.2]
  | cons a A ih =>
    intro idx tokens total h
    simp only [mapCompactTokens] at h
    by_cases ha : a = 0
    · rw [if_pos ha] at h
      exact ih _ _ _ h
    · rw [if_neg ha] at h
      cases hget : coins[idx]? with
      | none => rw [hget] at h; simp at h
      | some c =>
        rw [hget] at h
        cases hrec : mapCompactTokens coins tag A (idx + 1) with
        | error e => rw [hrec] at h; simp at h
        | ok p =>
          obtain ⟨ts, tot⟩ := p
          rw [hrec] at h
          simp only [Except.ok.injEq, Prod.mk.injEq] at h
          obtain ⟨htok, htot⟩ := h
          rw [← htok, ← htot, ih _ _ _ hrec]
          simp [List.filterMap_cons]

/-- On any successful run of the amounts-loop, every emitted leg carries a
present, non-zero amount and the given direction tag. -/
theorem mapCompactTokens_legs_nonzero (coins : List CurveCoin) (tag : LegType) :
    ∀ (rawAmounts : List ℕ) (idx : ℕ) tokens total,
      mapCompactTokens coins tag rawAmounts idx = .ok (tokens, total) →
      ∀ t ∈ tokens, (∃ q, t.amount = some q ∧ q ≠ 0) ∧ t.type = tag := by
  intro A
  induction A with
  | nil =>
    intro idx tokens total h
    simp only [mapCompactTokens, Except.ok.injEq, Prod.mk.injEq] at h
    rw [← h.1]
    intro t ht
    simp at ht
  | cons a A ih =>
    intro idx tokens total h
    simp only [mapCompactTokens] at h
    by_cases ha : a = 0
    · rw [if_pos ha] at h
      exact ih _ _ _ h
    · rw [if_neg ha] at h
      cases hget : coins[idx]? with
      | none => rw [hget] at h; simp at h
      | some c =>
        rw [hget] at h
        cases hrec : mapCompactTokens coins tag A (idx + 1) with
        | error e => rw [hrec] at h; simp at h
        | ok p =>
          obtain ⟨ts, tot⟩ := p
          rw [hrec] at h
          simp only [Except.ok.injEq, Prod.mk.injEq] at h
          obtain ⟨htok, _⟩ := h
          rw [← htok]
          intro t ht
          rcases List.mem_cons.mp ht with heq | hmem
          · subst heq
            exact ⟨⟨formatUnits a c.decimals, rfl, formatUnits_ne_zero ha⟩, rfl⟩
          · exact ih _ _ _ hrec t hmem

/-! ### Concrete fixtures used by witnesses and counterexamples -/

/-- A concrete two-coin USD pool. -/
def samplePool : CurvePoolWithInterface :=
  { address := "0xpool"
    coins := [{ symbol := "DAI", address := "0xdai", decimals := 2 },
              { symbol := "USDC", address := "0xusdc", decimals := 1 }]
    assetTypeName := .usd }

/-- The same pool with the distinguished "unknown" asset type. -/
def unknownPool : CurvePoolWithInterface :=
  { samplePool with assetTypeName := .unknown }

/-- A concrete successful transaction record. -/
def sampleTx : EtherscanTx :=
  { hash := "0xhash"
    timeStamp := 1650000000
    txreceipt_status := "1"
    isError := "0"
    «to» := "0xpool"
    input := "0xdata"
    value := "0" }

/-- A reverted transaction record (receipt status not success). -/
def failedTx : EtherscanTx := { sampleTx with txreceipt_status := "0" }

/-- A decoded `add_liquidity` call with amounts `[300, 0]`. -/
def addLiquidityInput : TransactionDescription :=
  { name := "add_liquidity", args := { _amounts := some [300, 0] } }

/-- A decoded `remove_liquidity_imbalance` call with amounts `[0, 5]`. -/
def imbalanceInput : TransactionDescription :=
  { name := "remove_liquidity_imbalance", args := { amounts := some [0, 5] } }

/-- A decoded `remove_liquidity_one_coin` call burning 4 LP units, coin 1. -/
def oneCoinInput : TransactionDescription :=
  { name := "remove_liquidity_one_coin"
    args := { _token_amount := some 4, i := some 1 } }

/-- A decoded balanced `remove_liquidity` call burning 7 LP units. -/
def balancedRemoveInput : TransactionDescription :=
  { name := "remove_liquidity", args := { _amount := some 7 } }

/-- A decoded `exchange` call: coin 0 to coin 1, input amount 6. -/
def exchangeInput : TransactionDescription :=
  { name := "exchange", args := { i := some 0, j := some 1, dx := some 6 } }

/-- A decoded `exchange` call whose raw input amount is zero. -/
def exchangeZeroInput : TransactionDescription :=
  { name := "exchange", args := { i := some 0, j := some 1, dx := some 0 } }

/-- A decoded `exchange` call whose source index 5 is out of range for the
two-coin sample pool. -/
def exchangeOutOfRangeInput : TransactionDescription :=
  { name := "exchange", args := { i := some 5, j := some 1, dx := some 6 } }

/-- A decode capability that always fails with the given error. -/
def failingDecode (e : JSError) :
    String → String → Except JSError TransactionDescription :=
  fun _ _ => .error e

/-- A decode capability that always returns the given decoded call. -/
def constDecode (d : TransactionDescription) :
    String → String → Except JSError TransactionDescription :=
  fun _ _ => .ok d

/-! ### Claim theorems -/

/-- C1: for every `add_liquidity` call over a pool with N coins and raw
amounts vector A, and likewise for `remove_liquidity_imbalance`, the output
contains a leg exactly for each index with a non-zero entry, tagged `add`
(resp. `remove`), each leg's amount `A[i] / 10 ^ decimals[i]`, and the total
equal to the sum of the converted non-zero entries. -/
theorem c1_amounts_vector_legs_and_total :
    (∀ (tx : EtherscanTx) (pool : CurvePoolWithInterface)
       (d : TransactionDescription) (A : List ℕ),
      d.name = "add_liquidity" →
      ((d.args._amounts <|> d.args.amounts) <|> d.args.uamounts) = some A →
      A.length = pool.coins.length →
      pool.assetTypeName ≠ .unknown →
      parseAddLiquidity tx pool d =
        .ok (some { hash := tx.hash
                    pool := pool.address
                    timestamp := tx.timeStamp
                    type := .ADD_LIQUIDITY
                    totalAmount := some (specTotalForAmounts A pool.coins)
                    tokens := specLegsForAmounts .add A pool.coins })) ∧
    (∀ (tx : EtherscanTx) (pool : CurvePoolWithInterface)
       (d : TransactionDescription) (A : List ℕ),
      d.name = "remove_liquidity_imbalance" →
      (d.args._amounts <|> d.args.amounts) = some A →
      A.length = pool.coins.length →
      pool.assetTypeName ≠ .unknown →
      parseRemoveLiquidity tx pool d =
        .ok (some { hash := tx.hash
                    pool := pool.address
                    timestamp := tx.timeStamp
                    type := .REMOVE_LIQUIDITY
                    totalAmount := some (specTotalForAmounts A pool.coins)
                    tokens := specLegsForAmounts .remove A pool.coins })) := by
  constructor
  · intro tx pool d A hname hargs hlen hknown
    have hmap := mapCompactTokens_eq_spec pool.coins .add A 0
      (by simpa using hlen.le)
    rw [List.drop_zero] at hmap
    unfold parseAddLiquidity
    rw [if_pos hname, hargs]
    simp only [hmap, if_pos hknown]
  · intro tx pool d A hname hargs hlen hknown
    have hmap := mapCompactTokens_eq_spec pool.coins .remove A 0
      (by simpa using hlen.le)
    rw [List.drop_zero] at hmap
    unfold parseRemoveLiquidity
    rw [if_pos hname, hargs]
    simp only [hmap, if_pos hknown]

/-- Witness for C1: concrete `add_liquidity [300, 0]` and
`remove_liquidity_imbalance [0, 5]` calls over the sample pool. -/
theorem c1_amounts_vector_legs_and_total_witness :
    parseAddLiquidity sampleTx samplePool addLiquidityInput =
      .ok (some { hash := "0xhash"
                  pool := "0xpool"
                  timestamp := 1650000000
                  type := .ADD_LIQUIDITY
                  totalAmount := some 3
                  tokens := [{ symbol := "DAI"
                               address := "0xdai"
                               amount := some 3
                               type := .add }] }) ∧
    parseRemoveLiquidity sampleTx samplePool imbalanceInput =
      .ok (some { hash := "0xhash"
                  pool := "0xpool"
                  timestamp := 1650000000
                  type := .REMOVE_LIQUIDITY
                  totalAmount := some (1 / 2 : ℚ)
                  tokens := [{ symbol := "USDC"
                               address := "0xusdc"
                               amount := some (1 / 2 : ℚ)
                               type := .remove }] }) := by
  constructor
  · rw [c1_amounts_vector_legs_and_total.1 sampleTx samplePool addLiquidityInput
        [300, 0] rfl rfl rfl (by decide)]
    norm_num [sampleTx, samplePool, specTotalForAmounts, specLegsForAmounts,
        formatUnits, List.zip_cons_cons, List.filterMap_cons, CURVE_POOL_TOKEN_DECIMALS]
  · rw [c1_amounts_vector_legs_and_total.2 sampleTx samplePool imbalanceInput
        [0, 5] rfl rfl rfl (by decide)]
    norm_num [sampleTx, samplePool, specTotalForAmounts, specLegsForAmounts,
        formatUnits, List.zip_cons_cons, List.filterMap_cons, CURVE_POOL_TOKEN_DECIMALS]

/-- C2: for every `exchange` call with source index i, destination index j
and raw input dx, the output has exactly two legs: coin i tagged `add` with
amount `dx / 10 ^ decimals[i]`, and coin j tagged `remove` with amount
absent; the total equals `dx / 10 ^ decimals[i]`. -/
theorem c2_exchange_two_legs
    (tx : EtherscanTx) (pool : CurvePoolWithInterface)
    (d : TransactionDescription) (iVal jVal dxVal : ℕ)
    (fromCoin toCoin : CurveCoin)
    (hname : d.name = "exchange")
    (hi : d.args.i = some iVal) (hj : d.args.j = some jVal)
    (hdx : (d.args.dx <|> d.args._dx) = some dxVal)
    (hfrom : pool.coins[iVal]? = some fromCoin)
    (htoCoin : pool.coins[jVal]? = some toCoin)
    (hknown : pool.assetTypeName ≠ .unknown) :
    parseExchange tx pool d =
      .ok (some { hash := tx.hash
                  pool := pool.address
                  timestamp := tx.timeStamp
                  type := .EXCHANGE
                  totalAmount := some (formatUnits dxVal fromCoin.decimals)
                  tokens := [{ symbol := fromCoin.symbol
                               address := fromCoin.address
                               amount := some (formatUnits dxVal fromCoin.decimals)
                               type := .add },
                             { symbol := toCoin.symbol
                               address := toCoin.address
                               amount := none
                               type := .remove }] }) := by
  unfold parseExchange
  rw [if_pos hname]
  simp only [hi, hj, hdx, hfrom, htoCoin, if_pos hknown]

/-- Witness for C2: exchange of 6 raw units of coin 0 for coin 1. -/
theorem c2_exchange_two_legs_witness :
    parseExchange sampleTx samplePool exchangeInput =
      .ok (some { hash := "0xhash"
                  pool := "0xpool"
                  timestamp := 1650000000
                  type := .EXCHANGE
                  totalAmount := some (3 / 50 : ℚ)
                  tokens := [{ symbol := "DAI"
                               address := "0xdai"
                               amount := some (3 / 50 : ℚ)
                               type := .add },
                             { symbol := "USDC"
                               address := "0xusdc"
                               amount := none
                               type := .remove }] }) := by
  rw [c2_exchange_two_legs sampleTx samplePool exchangeInput 0 1 6
      { symbol := "DAI", address := "0xdai", decimals := 2 }
      { symbol := "USDC", address := "0xusdc", decimals := 1 }
      rfl rfl rfl rfl (by decide) (by decide) (by decide)]
  norm_num [sampleTx, samplePool, specTotalForAmounts, specLegsForAmounts,
      formatUnits, List.zip_cons_cons, List.filterMap_cons, CURVE_POOL_TOKEN_DECIMALS]

/-- C3: for every `remove_liquidity_one_coin` call, the output has exactly
one leg, for the selected coin, tagged `remove` with amount absent, and the
total equals the raw burn amount divided by `10 ^ CURVE_POOL_TOKEN_DECIMALS`
(the fixed LP-token precision, not the selected coin's precision). -/
theorem c3_remove_one_coin_leg_and_total
    (tx : EtherscanTx) (pool : CurvePoolWithInterface)
    (d : TransactionDescription) (rawAmount iVal : ℕ) (coin : CurveCoin)
    (hname : d.name = "remove_liquidity_one_coin")
    (hamt : ((d.args._token_amount <|> d.args.token_amount)
        <|> d.args._burn_amount) = some rawAmount)
    (hi : d.args.i = some iVal)
    (hcoin : pool.coins[iVal]? = some coin)
    (hknown : pool.assetTypeName ≠ .unknown) :
    parseRemoveLiquidity tx pool d =
      .ok (some { hash := tx.hash
                  pool := pool.address
                  timestamp := tx.timeStamp
                  type := .REMOVE_LIQUIDITY
                  totalAmount :=
                    some (formatUnits rawAmount CURVE_POOL_TOKEN_DECIMALS)
                  tokens := [{ symbol := coin.symbol
                               address := coin.address
                               amount := none
                               type := .remove }] }) := by
  unfold parseRemoveLiquidity
  rw [if_neg (by rw [hname]; decide), if_pos hname]
  simp only [hamt, hi, hcoin, if_pos hknown]

/-- Witness for C3: burning 4 raw LP units for coin 1 of the sample pool. -/
theorem c3_remove_one_coin_leg_and_total_witness :
    parseRemoveLiquidity sampleTx samplePool oneCoinInput =
      .ok (some { hash := "0xhash"
                  pool := "0xpool"
                  timestamp := 1650000000
                  type := .REMOVE_LIQUIDITY
                  totalAmount := some ((4 : ℚ) / 10 ^ 18)
                  tokens := [{ symbol := "USDC"
                               address := "0xusdc"
                               amount := none
                               type := .remove }] }) := by
  rw [c3_remove_one_coin_leg_and_total sampleTx samplePool oneCoinInput 4 1
      { symbol := "USDC", address := "0xusdc", decimals := 1 }
      rfl rfl rfl (by decide) (by decide)]
  norm_num [sampleTx, samplePool, specTotalForAmounts, specLegsForAmounts,
      formatUnits, List.zip_cons_cons, List.filterMap_cons, CURVE_POOL_TOKEN_DECIMALS]

/-- C4: for every balanced `remove_liquidity` call over a pool with N coins,
the output has exactly N legs, one per pool coin in pool order, all tagged
`remove` with amount absent, and the total equals the raw burn amount
divided by `10 ^ CURVE_POOL_TOKEN_DECIMALS`. -/
theorem c4_balanced_remove_legs_and_total
    (tx : EtherscanTx) (pool : CurvePoolWithInterface)
    (d : TransactionDescription) (rawAmount : ℕ)
    (hname : d.name = "remove_liquidity")
    (hamt : (d.args._amount <|> d.args._burn_amount) = some rawAmount)
    (hknown : pool.assetTypeName ≠ .unknown) :
    parseRemoveLiquidity tx pool d =
      .ok (some { hash := tx.hash
                  pool := pool.address
                  timestamp := tx.timeStamp
                  type := .REMOVE_LIQUIDITY
                  totalAmount :=
                    some (formatUnits rawAmount CURVE_POOL_TOKEN_DECIMALS)
                  tokens := pool.coins.map fun coin =>
                    { symbol := coin.symbol
                      address := coin.address
                      amount := none
                      type := .remove } }) ∧
    (pool.coins.map fun coin =>
      ({ symbol := coin.symbol
         address := coin.address
         amount := none
         type := .remove } : CurveTokenWithAmount)).length =
      pool.coins.length := by
  constructor
  · unfold parseRemoveLiquidity
    rw [if_neg (by rw [hname]; decide), if_neg (by rw [hname]; decide),
        if_pos hname]
    simp only [hamt, if_pos hknown]
  · exact List.length_map pool.coins _

/-- Witness for C4: burning 7 raw LP units over the two-coin sample pool. -/
theorem c4_balanced_remove_legs_and_total_witness :
    parseRemoveLiquidity sampleTx samplePool balancedRemoveInput =
      .ok (some { hash := "0xhash"
                  pool := "0xpool"
                  timestamp := 1650000000
                  type := .REMOVE_LIQUIDITY
                  totalAmount := some ((7 : ℚ) / 10 ^ 18)
                  tokens := [{ symbol := "DAI"
                               address := "0xdai"
                               amount := none
                               type := .remove },
                             { symbol := "USDC"
                               address := "0xusdc"
                               amount := none
                               type := .remove }] }) := by
  rw [(c4_balanced_remove_legs_and_total sampleTx samplePool balancedRemoveInput 7
      rfl rfl (by decide)).1]
  norm_num [sampleTx, samplePool, specTotalForAmounts, specLegsForAmounts,
      formatUnits, List.zip_cons_cons, List.filterMap_cons, CURVE_POOL_TOKEN_DECIMALS]

/-- Inversion: any transaction produced by `parseAddLiquidity` comes from
the `add_liquidity` branch, with its record fully determined. -/
theorem parseAddLiquidity_ok_some (tx : EtherscanTx)
    (pool : CurvePoolWithInterface) (d : TransactionDescription)
    (t : CurveTransaction)
    (h : parseAddLiquidity tx pool d = .ok (some t)) :
    ∃ rawAmounts tokens totalAmount,
      d.name = "add_liquidity" ∧
      ((d.args._amounts <|> d.args.amounts) <|> d.args.uamounts)
        = some rawAmounts ∧
      mapCompactTokens pool.coins .add rawAmounts 0
        = .ok (tokens, totalAmount) ∧
      t = { hash := tx.hash
            pool := pool.address
            timestamp := tx.timeStamp
            type := .ADD_LIQUIDITY
            totalAmount :=
              if pool.assetTypeName ≠ .unknown then some totalAmount else none
            tokens := tokens } := by
  unfold parseAddLiquidity at h
  split at h
  next hname =>
    split at h
    next halias => simp at h
    next A halias =>
      split at h
      next e hmap => simp at h
      next tokens total hmap =>
        simp only [Except.ok.injEq, Option.some.injEq] at h
        exact ⟨A, tokens, total, hname, halias, hmap, h.symm⟩
  next hname => simp at h

/-- Inversion: any transaction produced by `parseRemoveLiquidity` comes from
one of its three variants, with its record fully determined. -/
theorem parseRemoveLiquidity_ok_some (tx : EtherscanTx)
    (pool : CurvePoolWithInterface) (d : TransactionDescription)
    (t : CurveTransaction)
    (h : parseRemoveLiquidity tx pool d = .ok (some t)) :
    (∃ rawAmounts tokens totalAmount,
      d.name = "remove_liquidity_imbalance" ∧
      (d.args._amounts <|> d.args.amounts) = some rawAmounts ∧
      mapCompactTokens pool.coins .remove rawAmounts 0
        = .ok (tokens, totalAmount) ∧
      t = { hash := tx.hash
            pool := pool.address
            timestamp := tx.timeStamp
            type := .REMOVE_LIQUIDITY
            totalAmount :=
              if pool.assetTypeName ≠ .unknown then some totalAmount else none
            tokens := tokens }) ∨
    (∃ rawAmount iVal coin,
      d.name = "remove_liquidity_one_coin" ∧
      ((d.args._token_amount <|> d.args.token_amount)
        <|> d.args._burn_amount) = some rawAmount ∧
      d.args.i = some iVal ∧
      pool.coins[iVal]? = some coin ∧
      t = { hash := tx.hash
            pool := pool.address
            timestamp := tx.timeStamp
            type := .REMOVE_LIQUIDITY
            totalAmount :=
              if pool.assetTypeName ≠ .unknown then
                some (formatUnits rawAmount CURVE_POOL_TOKEN_DECIMALS)
              else none
            tokens := [{ symbol := coin.symbol
                         address := coin.address
                         amount := none
                         type := .remove }] }) ∨
    (∃ rawAmount,
      d.name = "remove_liquidity" ∧
      (d.args._amount <|> d.args._burn_amount) = some rawAmount ∧
      t = { hash := tx.hash
            pool := pool.address
            timestamp := tx.timeStamp
            type := .REMOVE_LIQUIDITY
            totalAmount :=
              if pool.assetTypeName ≠ .unknown then
                some (formatUnits rawAmount CURVE_POOL_TOKEN_DECIMALS)
              else none
            tokens := pool.coins.map fun coin =>
              { symbol := coin.symbol
                address := coin.address
                amount := none
                type := .remove } }) := by
  unfold parseRemoveLiquidity at h
  split at h
  next hname =>
    split at h
    next halias => simp at h
    next A halias =>
      split at h
      next e hmap => simp at h
      next tokens total hmap =>
        simp only [Except.ok.injEq, Option.some.injEq] at h
        exact Or.inl ⟨A, tokens, total, hname, halias, hmap, h.symm⟩
  next hname1 =>
    split at h
    next hname =>
      split at h
      next hamt => simp at h
      next rawAmount hamt =>
        split at h
        next hi => simp at h
        next iVal hi =>
          split at h
          next hcoin => simp at h
          next coin hcoin =>
            simp only [Except.ok.injEq, Option.some.injEq] at h
            exact Or.inr (Or.inl
              ⟨rawAmount, iVal, coin, hname, hamt, hi, hcoin, h.symm⟩)
    next hname2 =>
      split at h
      next hname =>
        split at h
        next hamt => simp at h
        next rawAmount hamt =>
          simp only [Except.ok.injEq, Option.some.injEq] at h
          exact Or.inr (Or.inr ⟨rawAmount, hname, hamt, h.symm⟩)
      next hname3 => simp at h

/-- Inversion: any transaction produced by `parseExchange` comes from the
standard `exchange` branch, with its record fully determined. -/
theorem parseExchange_ok_some (tx : EtherscanTx)
    (pool : CurvePoolWithInterface) (d : TransactionDescription)
    (t : CurveTransaction)
    (h : parseExchange tx pool d = .ok (some t)) :
    ∃ iVal jVal dxVal fromCoin toCoin,
      d.name = "exchange" ∧
      d.args.i = some iVal ∧
      d.args.j = some jVal ∧
      pool.coins[iVal]? = some fromCoin ∧
      (d.args.dx <|> d.args._dx) = some dxVal ∧
      pool.coins[jVal]? = some toCoin ∧
      t = { hash := tx.hash
            pool := pool.address
            timestamp := tx.timeStamp
            type := .EXCHANGE
            totalAmount :=
              if pool.assetTypeName ≠ .unknown then
                some (formatUnits dxVal fromCoin.decimals)
              else none
            tokens := [{ symbol := fromCoin.symbol
                         address := fromCoin.address
                         amount := some (formatUnits dxVal fromCoin.decimals)
                         type := .add },
                       { symbol := toCoin.symbol
                         address := toCoin.address
                         amount := none
                         type := .remove }] } := by
  unfold parseExchange at h
  split at h
  next hname =>
    split at h
    next hi => simp at h
    next iVal hi =>
      split at h
      next hj => simp at h
      next jVal hj =>
        split at h
        next hfrom => simp at h
        next fromCoin hfrom =>
          split at h
          next hdx => simp at h
          next dxVal hdx =>
            split at h
            next hto2 => simp at h
            next toCoin hto2 =>
              simp only [Except.ok.injEq, Option.some.injEq] at h
              exact ⟨iVal, jVal, dxVal, fromCoin, toCoin,
                hname, hi, hj, hfrom, hdx, hto2, h.symm⟩
  next hname1 =>
    split at h
    next hname => simp at h
    next hname2 => simp at h

/-- C5: whenever the pool's asset-type classification is the distinguished
"unknown" value, any transaction produced by any of the three decoders has
an absent total amount, regardless of per-leg amounts. -/
theorem c5_unknown_pool_suppresses_total
    (tx : EtherscanTx) (pool : CurvePoolWithInterface)
    (d : TransactionDescription) (t : CurveTransaction)
    (hunk : pool.assetTypeName = .unknown)
    (h : parseAddLiquidity tx pool d = .ok (some t) ∨
         parseRemoveLiquidity tx pool d = .ok (some t) ∨
         parseExchange tx pool d = .ok (some t)) :
    t.totalAmount = none := by
  rcases h with h | h | h
  · obtain ⟨_, _, _, _, _, _, ht⟩ := parseAddLiquidity_ok_some _ _ _ _ h
    rw [ht]
    simp [hunk]
  · rcases parseRemoveLiquidity_ok_some _ _ _ _ h with
      ⟨_, _, _, _, _, _, ht⟩ | ⟨_, _, _, _, _, _, _, ht⟩ | ⟨_, _, _, ht⟩ <;>
    · rw [ht]
      simp [hunk]
  · obtain ⟨_, _, _, _, _, _, _, _, _, _, _, ht⟩ :=
      parseExchange_ok_some _ _ _ _ h
    rw [ht]
    simp [hunk]

/-- Witness for C5: over the unknown-asset-type pool, the concrete
`add_liquidity [300, 0]` output has an absent total even though its single
leg carries amount 3. -/
theorem c5_unknown_pool_suppresses_total_witness :
    ({ hash := "0xhash"
       pool := "0xpool"
       timestamp := 1650000000
       type := CurveTransactionType.ADD_LIQUIDITY
       totalAmount := none
       tokens := [{ symbol := "DAI"
                    address := "0xdai"
                    amount := some 3
                    type := LegType.add }] } : CurveTransaction).totalAmount
      = none := by
  refine c5_unknown_pool_suppresses_total sampleTx unknownPool
    addLiquidityInput _ rfl (Or.inl ?_)
  norm_num [parseAddLiquidity, addLiquidityInput, unknownPool, samplePool,
    sampleTx, mapCompactTokens, formatUnits]

/-- C6 counterexample: over the non-unknown (USD) sample pool, the concrete
`remove_liquidity_one_coin` output has present total `4 / 10 ^ 18` while its
only leg carries no amount, so the sum of present leg amounts is 0: the
invariant "total = sum of present leg amounts" fails as stated. -/
theorem c6_total_vs_present_sum_counterexample :
    parseRemoveLiquidity sampleTx samplePool oneCoinInput =
      .ok (some { hash := "0xhash"
                  pool := "0xpool"
                  timestamp := 1650000000
                  type := .REMOVE_LIQUIDITY
                  totalAmount := some ((4 : ℚ) / 10 ^ 18)
                  tokens := [{ symbol := "USDC"
                               address := "0xusdc"
                               amount := none
                               type := .remove }] }) ∧
    samplePool.assetTypeName ≠ CurveAssetTypeName.unknown ∧
    some ((4 : ℚ) / 10 ^ 18) ≠
      some ((([{ symbol := "USDC"
                 address := "0xusdc"
                 amount := none
                 type := LegType.remove }] :
          List CurveTokenWithAmount).filterMap CurveTokenWithAmount.amount).sum) := by
  refine ⟨?_, by decide, by norm_num [List.filterMap_cons]⟩
  norm_num +decide [parseRemoveLiquidity, oneCoinInput, samplePool, sampleTx,
    formatUnits, CURVE_POOL_TOKEN_DECIMALS]

/-- C6 amended: over a pool with non-unknown asset type, the present total
equals the sum of present leg amounts for `add_liquidity`,
`remove_liquidity_imbalance` and `exchange` outputs; outputs of
`remove_liquidity_one_coin` and balanced `remove_liquidity` carry no present
leg amounts at all (their total is the converted burn amount instead). -/
theorem c6_amended_total_eq_present_sum :
    (∀ (tx : EtherscanTx) (pool : CurvePoolWithInterface)
       (d : TransactionDescription) (t : CurveTransaction),
      pool.assetTypeName ≠ .unknown →
      parseAddLiquidity tx pool d = .ok (some t) →
      t.totalAmount =
        some ((t.tokens.filterMap CurveTokenWithAmount.amount).sum)) ∧
    (∀ (tx : EtherscanTx) (pool : CurvePoolWithInterface)
       (d : TransactionDescription) (t : CurveTransaction),
      pool.assetTypeName ≠ .unknown →
      d.name = "remove_liquidity_imbalance" →
      parseRemoveLiquidity tx pool d = .ok (some t) →
      t.totalAmount =
        some ((t.tokens.filterMap CurveTokenWithAmount.amount).sum)) ∧
    (∀ (tx : EtherscanTx) (pool : CurvePoolWithInterface)
       (d : TransactionDescription) (t : CurveTransaction),
      pool.assetTypeName ≠ .unknown →
      parseExchange tx pool d = .ok (some t) →
      t.totalAmount =
        some ((t.tokens.filterMap CurveTokenWithAmount.amount).sum)) ∧
    (∀ (tx : EtherscanTx) (pool : CurvePoolWithInterface)
       (d : TransactionDescription) (t : CurveTransaction),
      (d.name = "remove_liquidity_one_coin" ∨ d.name = "remove_liquidity") →
      parseRemoveLiquidity tx pool d = .ok (some t) →
      ∀ leg ∈ t.tokens, leg.amount = none) := by
  refine ⟨?_, ?_, ?_, ?_⟩
  · intro tx pool d t hknown h
    obtain ⟨A, tokens, total, _, _, hmap, ht⟩ :=
      parseAddLiquidity_ok_some _ _ _ _ h
    rw [ht, mapCompactTokens_total_eq_sum pool.coins .add A 0 tokens total hmap]
    simp [hknown]
  · intro tx pool d t hknown hname h
    rcases parseRemoveLiquidity_ok_some _ _ _ _ h with
      ⟨A, tokens, total, _, _, hmap, ht⟩ | ⟨_, _, _, hname2, _⟩ |
      ⟨_, hname2, _⟩
    · rw [ht,
        mapCompactTokens_total_eq_sum pool.coins .remove A 0 tokens total hmap]
      simp [hknown]
    · rw [hname] at hname2
      exact absurd hname2 (by decide)
    · rw [hname] at hname2
      exact absurd hname2 (by decide)
  · intro tx pool d t hknown h
    obtain ⟨iVal, jVal, dxVal, fromCoin, toCoin, _, _, _, _, _, _, ht⟩ :=
      parseExchange_ok_some _ _ _ _ h
    rw [ht]
    simp [hknown, List.filterMap_cons]
  · intro tx pool d t hname h
    rcases parseRemoveLiquidity_ok_some _ _ _ _ h with
      ⟨_, _, _, hname2, _⟩ | ⟨_, _, _, _, _, _, _, ht⟩ | ⟨_, _, _, ht⟩
    · rcases hname with hname | hname <;>
      · rw [hname] at hname2
        exact absurd hname2 (by decide)
    · rw [ht]
      intro leg hleg
      simp only [List.mem_singleton] at hleg
      rw [hleg]
    · rw [ht]
      intro leg hleg
      simp only [List.mem_map] at hleg
      obtain ⟨coin, _, hcoin⟩ := hleg
      rw [← hcoin]

/-- Witness for the amended C6: the concrete `add_liquidity [300, 0]` output
has total 3, the sum of its single present leg amount. -/
theorem c6_amended_total_eq_present_sum_witness :
    ({ hash := "0xhash"
       pool := "0xpool"
       timestamp := 1650000000
       type := CurveTransactionType.ADD_LIQUIDITY
       totalAmount := some 3
       tokens := [{ symbol := "DAI"
                    address := "0xdai"
                    amount := some 3
                    type := LegType.add }] } : CurveTransaction).totalAmount =
      some ((([{ symbol := "DAI"
                 address := "0xdai"
                 amount := some 3
                 type := LegType.add }] :
          List CurveTokenWithAmount).filterMap CurveTokenWithAmount.amount).sum) := by
  refine c6_amended_total_eq_present_sum.1 sampleTx samplePool
    addLiquidityInput _ (by decide) ?_
  norm_num +decide [parseAddLiquidity, addLiquidityInput, samplePool, sampleTx,
    mapCompactTokens, formatUnits]

/-- C7 counterexample: an `exchange` call whose raw input amount is zero
emits a source leg with present amount 0 — the exchange decoder does not
drop zero-amount legs, so the invariant fails as stated. -/
theorem c7_zero_leg_counterexample :
    parseExchange sampleTx samplePool exchangeZeroInput =
      .ok (some { hash := "0xhash"
                  pool := "0xpool"
                  timestamp := 1650000000
                  type := .EXCHANGE
                  totalAmount := some 0
                  tokens := [{ symbol := "DAI"
                               address := "0xdai"
                               amount := some 0
                               type := .add },
                             { symbol := "USDC"
                               address := "0xusdc"
                               amount := none
                               type := .remove }] }) ∧
    ({ symbol := "DAI"
       address := "0xdai"
       amount := some 0
       type := LegType.add } : CurveTokenWithAmount) ∈
      ([{ symbol := "DAI"
          address := "0xdai"
          amount := some 0
          type := LegType.add },
        { symbol := "USDC"
          address := "0xusdc"
          amount := none
          type := LegType.remove }] : List CurveTokenWithAmount) ∧
    ({ symbol := "DAI"
       address := "0xdai"
       amount := some 0
       type := LegType.add } : CurveTokenWithAmount).amount = some 0 := by
  refine ⟨?_, List.mem_cons_self _ _, rfl⟩
  norm_num +decide [parseExchange, exchangeZeroInput, samplePool, sampleTx,
    formatUnits]

/-- C7 amended: no leg with a present zero amount occurs in any output of
the add-liquidity or remove-liquidity decoders; for the exchange decoder
the same holds whenever the raw input amount `dx` is non-zero (when `dx` is
zero the source leg carries present amount 0). -/
theorem c7_amended_no_zero_amount_legs :
    (∀ (tx : EtherscanTx) (pool : CurvePoolWithInterface)
       (d : TransactionDescription) (t : CurveTransaction),
      parseAddLiquidity tx pool d = .ok (some t) →
      ∀ leg ∈ t.tokens, leg.amount ≠ some 0) ∧
    (∀ (tx : EtherscanTx) (pool : CurvePoolWithInterface)
       (d : TransactionDescription) (t : CurveTransaction),
      parseRemoveLiquidity tx pool d = .ok (some t) →
      ∀ leg ∈ t.tokens, leg.amount ≠ some 0) ∧
    (∀ (tx : EtherscanTx) (pool : CurvePoolWithInterface)
       (d : TransactionDescription) (t : CurveTransaction) (dxVal : ℕ),
      (d.args.dx <|> d.args._dx) = some dxVal →
      dxVal ≠ 0 →
      parseExchange tx pool d = .ok (some t) →
      ∀ leg ∈ t.tokens, leg.amount ≠ some 0) := by
  refine ⟨?_, ?_, ?_⟩
  · intro tx pool d t h leg hleg
    obtain ⟨A, tokens, total, _, _, hmap, ht⟩ :=
      parseAddLiquidity_ok_some _ _ _ _ h
    rw [ht] at hleg
    obtain ⟨⟨q, hq, hqz⟩, -⟩ :=
      mapCompactTokens_legs_nonzero pool.coins .add A 0 tokens total hmap
        leg hleg
    rw [hq]
    simp [hqz]
  · intro tx pool d t h leg hleg
    rcases parseRemoveLiquidity_ok_some _ _ _ _ h with
      ⟨A, tokens, total, _, _, hmap, ht⟩ | ⟨_, _, coin, _, _, _, _, ht⟩ |
      ⟨_, _, _, ht⟩
    · rw [ht] at hleg
      obtain ⟨⟨q, hq, hqz⟩, -⟩ :=
        mapCompactTokens_legs_nonzero pool.coins .remove A 0 tokens total hmap
          leg hleg
      rw [hq]
      simp [hqz]
    · rw [ht] at hleg
      simp only [List.mem_singleton] at hleg
      rw [hleg]
      simp
    · rw [ht] at hleg
      simp only [List.mem_map] at hleg
      obtain ⟨coin, _, hcoin⟩ := hleg
      rw [← hcoin]
      simp
  · intro tx pool d t dxVal hdx hdxz h leg hleg
    obtain ⟨iVal, jVal, dxVal2, fromCoin, toCoin, _, _, _, _, hdx2, _, ht⟩ :=
      parseExchange_ok_some _ _ _ _ h
    rw [hdx] at hdx2
    obtain rfl : dxVal = dxVal2 := by injection hdx2
    rw [ht] at hleg
    rcases List.mem_cons.mp hleg with hl | hl
    · rw [hl]
      simp only [ne_eq, Option.some.injEq]
      exact formatUnits_ne_zero hdxz
    · simp only [List.mem_singleton] at hl
      rw [hl]
      simp

/-- Witness for the amended C7: the source leg of the concrete exchange of
6 raw units (amount 3/50) is not a zero-amount leg. -/
theorem c7_amended_no_zero_amount_legs_witness :
    ({ symbol := "DAI"
       address := "0xdai"
       amount := some (3 / 50 : ℚ)
       type := LegType.add } : CurveTokenWithAmount).amount ≠ some 0 := by
  refine c7_amended_no_zero_amount_legs.2.2 sampleTx samplePool exchangeInput
    { hash := "0xhash"
      pool := "0xpool"
      timestamp := 1650000000
      type := .EXCHANGE
      totalAmount := some (3 / 50 : ℚ)
      tokens := [{ symbol := "DAI"
                   address := "0xdai"
                   amount := some (3 / 50 : ℚ)
                   type := .add },
                 { symbol := "USDC"
                   address := "0xusdc"
                   amount := none
                   type := .remove }] }
    6 rfl (by decide) ?_ _ (List.mem_cons_self _ _)
  norm_num +decide [parseExchange, exchangeInput, samplePool, sampleTx,
    formatUnits]

/-- C8: a transaction whose receipt status is not success, or whose error
flag is set, always yields both outputs absent, and the decode capability is
never consulted: the result is identical for any two decode capabilities. -/
theorem c8_failed_tx_not_applicable
    (decode decode' : String → String → Except JSError TransactionDescription)
    (pool : CurvePoolWithInterface) (tx : EtherscanTx)
    (h : tx.txreceipt_status ≠ "1" ∨ tx.isError = "1") :
    parseTransaction decode pool tx =
      .ok { decodedInput := none, transaction := none } ∧
    parseTransaction decode pool tx = parseTransaction decode' pool tx := by
  constructor
  · unfold parseTransaction
    rw [if_pos h]
  · unfold parseTransaction
    rw [if_pos h]
    rw [if_pos h]

/-- Witness for C8: a concrete reverted transaction yields absent outputs
under a failing decoder and under an always-succeeding decoder alike. -/
theorem c8_failed_tx_not_applicable_witness :
    (failedTx.txreceipt_status ≠ "1" ∨ failedTx.isError = "1") ∧
    (parseTransaction (failingDecode { code := some "BUFFER_OVERRUN" })
        samplePool failedTx =
      .ok { decodedInput := none, transaction := none } ∧
    parseTransaction (failingDecode { code := some "BUFFER_OVERRUN" })
        samplePool failedTx =
      parseTransaction (constDecode addLiquidityInput) samplePool failedTx) :=
  ⟨by decide,
   c8_failed_tx_not_applicable (failingDecode { code := some "BUFFER_OVERRUN" })
     (constDecode addLiquidityInput) samplePool failedTx (by decide)⟩

/-- C9: when the guards pass and the decode capability fails, the result is
"not applicable" exactly when the failure carries the INVALID_ARGUMENT code;
any other decode failure is re-raised to the caller. -/
theorem c9_decode_failure_invalid_argument_iff
    (decode : String → String → Except JSError TransactionDescription)
    (pool : CurvePoolWithInterface) (tx : EtherscanTx) (e : JSError)
    (hstatus : ¬(tx.txreceipt_status ≠ "1" ∨ tx.isError = "1"))
    (hto : ¬tx.«to» = "")
    (hdec : decode tx.input tx.value = .error e) :
    (parseTransaction decode pool tx =
        .ok { decodedInput := none, transaction := none } ↔
      e.code = some "INVALID_ARGUMENT") ∧
    (e.code ≠ some "INVALID_ARGUMENT" →
      parseTransaction decode pool tx = .error e) := by
  unfold parseTransaction
  rw [if_neg hstatus, if_neg hto]
  simp only [hdec]
  constructor
  · constructor
    · intro hok
      by_contra hc
      rw [if_neg hc] at hok
      exact Except.noConfusion hok
    · intro hc
      rw [if_pos hc]
  · intro hc
    rw [if_neg hc]

/-- Witness for C9: a concrete INVALID_ARGUMENT decode failure classifies as
"not applicable", by the iff of the theorem. -/
theorem c9_decode_failure_invalid_argument_iff_witness :
    (parseTransaction (failingDecode { code := some "INVALID_ARGUMENT" })
        samplePool sampleTx =
      .ok { decodedInput := none, transaction := none } ↔
      ({ code := some "INVALID_ARGUMENT" } : JSError).code =
        some "INVALID_ARGUMENT") ∧
    (({ code := some "INVALID_ARGUMENT" } : JSError).code ≠
        some "INVALID_ARGUMENT" →
      parseTransaction (failingDecode { code := some "INVALID_ARGUMENT" })
        samplePool sampleTx =
      .error { code := some "INVALID_ARGUMENT" }) :=
  c9_decode_failure_invalid_argument_iff
    (failingDecode { code := some "INVALID_ARGUMENT" }) samplePool sampleTx
    { code := some "INVALID_ARGUMENT" } (by decide) (by decide) rfl

/-- C10: the exchange and one-coin-removal decoders index the pool's coin
list with the decoded indices without a bounds check.  When every decoded
index is below the number of pool coins the lookups succeed and a
transaction is produced; an out-of-range index makes the operation throw
(a TypeError) instead of returning "not applicable". -/
theorem c10_unchecked_coin_indexing :
    (∀ (tx : EtherscanTx) (pool : CurvePoolWithInterface)
       (d : TransactionDescription) (iVal jVal dxVal : ℕ),
      d.name = "exchange" →
      d.args.i = some iVal →
      d.args.j = some jVal →
      (d.args.dx <|> d.args._dx) = some dxVal →
      ((iVal < pool.coins.length → jVal < pool.coins.length →
          ∃ t, parseExchange tx pool d = .ok (some t)) ∧
       (pool.coins.length ≤ iVal →
          parseExchange tx pool d = .error typeError) ∧
       (iVal < pool.coins.length → pool.coins.length ≤ jVal →
          parseExchange tx pool d = .error typeError))) ∧
    (∀ (tx : EtherscanTx) (pool : CurvePoolWithInterface)
       (d : TransactionDescription) (iVal rawAmount : ℕ),
      d.name = "remove_liquidity_one_coin" →
      ((d.args._token_amount <|> d.args.token_amount)
        <|> d.args._burn_amount) = some rawAmount →
      d.args.i = some iVal →
      ((iVal < pool.coins.length →
          ∃ t, parseRemoveLiquidity tx pool d = .ok (some t)) ∧
       (pool.coins.length ≤ iVal →
          parseRemoveLiquidity tx pool d = .error typeError))) := by
  constructor
  · intro tx pool d iVal jVal dxVal hname hi hj hdx
    refine ⟨?_, ?_, ?_⟩
    · intro hilt hjlt
      refine ⟨{ hash := tx.hash
                pool := pool.address
                timestamp := tx.timeStamp
                type := .EXCHANGE
                totalAmount :=
                  if pool.assetTypeName ≠ .unknown then
                    some (formatUnits dxVal (pool.coins[iVal]).decimals)
                  else none
                tokens := [{ symbol := (pool.coins[iVal]).symbol
                             address := (pool.coins[iVal]).address
                             amount :=
                               some (formatUnits dxVal
                                 (pool.coins[iVal]).decimals)
                             type := .add },
                           { symbol := (pool.coins[jVal]).symbol
                             address := (pool.coins[jVal]).address
                             amount := none
                             type := .remove }] }, ?_⟩
      unfold parseExchange
      rw [if_pos hname]
      simp only [hi, hj, hdx, List.getElem?_eq_getElem hilt,
        List.getElem?_eq_getElem hjlt]
    · intro hige
      unfold parseExchange
      rw [if_pos hname]
      simp only [hi, hj, hdx, List.getElem?_eq_none hige]
    · intro hilt hjge
      unfold parseExchange
      rw [if_pos hname]
      simp only [hi, hj, hdx, List.getElem?_eq_getElem hilt,
        List.getElem?_eq_none hjge]
  · intro tx pool d iVal rawAmount hname hamt hi
    constructor
    · intro hilt
      refine ⟨{ hash := tx.hash
                pool := pool.address
                timestamp := tx.timeStamp
                type := .REMOVE_LIQUIDITY
                totalAmount :=
                  if pool.assetTypeName ≠ .unknown then
                    some (formatUnits rawAmount CURVE_POOL_TOKEN_DECIMALS)
                  else none
                tokens := [{ symbol := (pool.coins[iVal]).symbol
                             address := (pool.coins[iVal]).address
                             amount := none
                             type := .remove }] }, ?_⟩
      unfold parseRemoveLiquidity
      rw [if_neg (by rw [hname]; decide), if_pos hname]
      simp only [hamt, hi, List.getElem?_eq_getElem hilt]
    · intro hige
      unfold parseRemoveLiquidity
      rw [if_neg (by rw [hname]; decide), if_pos hname]
      simp only [hamt, hi, List.getElem?_eq_none hige]

/-- Witness for C10: the in-range concrete exchange produces a transaction;
the out-of-range source index 5 makes the decoder throw a TypeError. -/
theorem c10_unchecked_coin_indexing_witness :
    (∃ t, parseExchange sampleTx samplePool exchangeInput = .ok (some t)) ∧
    parseExchange sampleTx samplePool exchangeOutOfRangeInput =
      .error typeError :=
  ⟨(c10_unchecked_coin_indexing.1 sampleTx samplePool exchangeInput 0 1 6
      rfl rfl rfl rfl).1 (by decide) (by decide),
   (c10_unchecked_coin_indexing.1 sampleTx samplePool exchangeOutOfRangeInput
      5 1 6 rfl rfl rfl rfl).2.1 (by decide)⟩
